import Mathlib

/-!
Verification of the MIDI framing and sleep/power-management core of the
Bean Arduino board support module (`Bean.cpp`).

The development shallowly embeds the relevant C++ functions:

* the MIDI ring buffer and its operations `midiSend`, `midiPacketSend`,
  `midiRead` (encode/decode of the radio packet format);
* the sleep entry path `sleep` / `attemptSleep`, as an effect-trace
  producing function over the analog-peripheral register bits it touches;
* a small interrupt machine for the atomic check-then-sleep region,
  following the avr-libc semantics quoted verbatim in the source comments
  (the instruction after `sei` executes before any pending interrupt is
  serviced; a pin-change wake event latches the interrupt flag).

Machine integers are modelled as `Nat` with explicit `% 256` / `% 2^32`
truncation at the points where the C code performs a narrowing conversion.
-/

namespace Bean

set_option autoImplicit false

/-! ## MIDI data model (Bean.cpp lines 39-52) -/

def MIDI_BUFFER_SIZE : Nat := 20

def BLE_PACKET_SIZE : Nat := 20

/-- The C struct `midiMessage`: a 32-bit timestamp and three byte fields. -/
structure MidiMessage where
  timestamp : Nat
  status : Nat
  byte1 : Nat
  byte2 : Nat
deriving Repr, DecidableEq

/-- Global MIDI ring-buffer state: the `midiMessages` array (slots 0..19)
together with the write and read cursors. -/
structure MidiState where
  midiMessages : Nat → MidiMessage
  midiWriteOffset : Nat
  midiReadOffset : Nat

/-- The slot contents are bytes: every array slot holds byte-sized
status/data fields, as the `uint8_t` struct fields guarantee in C. -/
def byteValued (s : MidiState) : Prop :=
  ∀ i < MIDI_BUFFER_SIZE,
    (s.midiMessages i).status < 256 ∧
    (s.midiMessages i).byte1 < 256 ∧
    (s.midiMessages i).byte2 < 256

instance (s : MidiState) : Decidable (byteValued s) := by
  unfold byteValued; infer_instance

/-- `BeanClass::midiSend` (lines 697-707).  `millisec` stands for the
`millis()` reading at the call.  Returns the updated state and the C
return value (1 = buffer full, 0 = stored). -/
def midiSend (s : MidiState) (millisec status byte1 byte2 : Nat) :
    MidiState × Nat :=
  if (s.midiWriteOffset + 1) % MIDI_BUFFER_SIZE = s.midiReadOffset then
    (s, 1)
  else
    (⟨Function.update s.midiMessages s.midiWriteOffset
        ⟨millisec % 2 ^ 32, status % 256, byte1 % 256, byte2 % 256⟩,
      (s.midiWriteOffset + 1) % MIDI_BUFFER_SIZE,
      s.midiReadOffset⟩,
     0)

/-- The per-event timestamp byte of the packet encoding:
`uint8_t msg_ts = timestamp; msg_ts |= 1 << 7;` (lines 728-729). -/
def msgTs (m : MidiMessage) : Nat := m.timestamp % 256 ||| 128

/-- The packet header byte: `uint8_t head_ts = millisec >> 7;
head_ts |= 1 << 7; head_ts &= ~(1 << 6);` (lines 715-717). -/
def headTs (millisec : Nat) : Nat := ((millisec >>> 7) % 256 ||| 128) &&& 191

/-- The four packet bytes of one (non-running-status) event record. -/
def recordBytes (m : MidiMessage) : List Nat :=
  [msgTs m, m.status, m.byte1, m.byte2]

/-- The body of the `while` loop of `BeanClass::midiPacketSend`
(lines 720-740).  Arguments mirror the C locals: `lastStatus`/`lastTime`
are the `int` locals initialised to `-1` (and, as in the source, never
reassigned by the loop), `byteOffset` the fill cursor of `midiPacket`,
`packet` the bytes written so far.  Returns the final read offset,
`byteOffset`, and the packet bytes. -/
def midiPacketSendLoop (msgs : Nat → MidiMessage) (w : Nat)
    (lastStatus lastTime : Int) (r byteOffset : Nat) (packet : List Nat) :
    Nat × Nat × List Nat :=
  if r = w then (r, byteOffset, packet)
  else
    if lastStatus = ((msgs r).status : Int) ∧
        lastTime.emod (2 ^ 32) = ((msgs r).timestamp : Int) then
      if byteOffset + 2 + 4 > BLE_PACKET_SIZE then
        ((r + 1) % MIDI_BUFFER_SIZE, byteOffset + 2,
         packet ++ [(msgs r).byte1, (msgs r).byte2])
      else
        midiPacketSendLoop msgs w lastStatus lastTime
          ((r + 1) % MIDI_BUFFER_SIZE) (byteOffset + 2)
          (packet ++ [(msgs r).byte1, (msgs r).byte2])
    else
      if byteOffset + 4 + 4 > BLE_PACKET_SIZE then
        ((r + 1) % MIDI_BUFFER_SIZE, byteOffset + 4,
         packet ++ recordBytes (msgs r))
      else
        midiPacketSendLoop msgs w lastStatus lastTime
          ((r + 1) % MIDI_BUFFER_SIZE) (byteOffset + 4)
          (packet ++ recordBytes (msgs r))
termination_by BLE_PACKET_SIZE - byteOffset
decreasing_by
  all_goals simp only [BLE_PACKET_SIZE] at *
  all_goals omega

/-- `BeanClass::midiPacketSend` (lines 709-743).  Returns the updated
ring-buffer state, the C return value `byteOffset`, and the packet bytes
handed to `Serial.write_message`. -/
def midiPacketSend (s : MidiState) : MidiState × Nat × List Nat :=
  if s.midiReadOffset = s.midiWriteOffset then (s, 0, [])
  else
    let millisec := (s.midiMessages s.midiReadOffset).timestamp
    let res := midiPacketSendLoop s.midiMessages s.midiWriteOffset
        (-1) (-1) s.midiReadOffset 1 [headTs millisec]
    ({s with midiReadOffset := res.1}, res.2.1, res.2.2)

/-! ## MIDI decode path -/

/-- Decoder session state of `BeanClass::midiRead`: the members
`midiPacketBegin` and `lastStatus` of `BeanClass`. -/
structure DecoderState where
  midiPacketBegin : Bool
  lastStatus : Nat
deriving Repr, DecidableEq

/-- Result of one `midiRead` call: new session state, remaining inbound
bytes, the values written through the three out-pointers (`none` when the
call leaves them untouched), and the C return value. -/
structure MidiReadResult where
  d : DecoderState
  rest : List Nat
  out : Option (Nat × Nat × Nat)
  ret : Nat
deriving Repr, DecidableEq

/-- `BeanClass::midiRead` (lines 745-790).  The inbound serial MIDI
buffer is the list `inBytes`; `Serial.midiAvailable()` is its length,
`Serial.peekMidi()` its head, and `Serial.readMidi(buf, n)` removes `n`
bytes from its front. -/
def midiRead (d : DecoderState) (inBytes : List Nat) : MidiReadResult :=
  let hdr : Bool × List Nat :=
    if d.midiPacketBegin then
      if inBytes.length > 4 then (false, inBytes.drop 1) else (true, inBytes)
    else (false, inBytes)
  let pb := hdr.1
  let bytes := hdr.2
  if pb then ⟨⟨pb, d.lastStatus⟩, bytes, none, 0⟩
  else
    match bytes with
    | [] => ⟨⟨pb, d.lastStatus⟩, bytes, none, 0⟩
    | peek :: _ =>
      if peek &&& 128 ≠ 0 then
        match bytes with
        | t :: st :: b1 :: b2 :: rest =>
          if t = 255 ∧ st = 255 ∧ b1 = 255 ∧ b2 = 255 then
            ⟨⟨true, st⟩, rest, some (st, b1, b2), 0⟩
          else
            ⟨⟨false, st⟩, rest, some (st, b1, b2), peek⟩
        | _ => ⟨⟨pb, d.lastStatus⟩, bytes, none, 0⟩
      else
        match bytes with
        | b1 :: b2 :: rest =>
          ⟨⟨false, d.lastStatus⟩, rest, some (d.lastStatus, b1, b2), peek⟩
        | _ => ⟨⟨pb, d.lastStatus⟩, bytes, none, 0⟩

/-- Drive `midiRead` repeatedly, collecting the output triples of the
calls that report an event (non-zero return), and stopping at the first
call that returns 0. -/
def decodeAll (fuel : Nat) (d : DecoderState) (bytes : List Nat) :
    List (Nat × Nat × Nat) :=
  match fuel with
  | 0 => []
  | fuel + 1 =>
    let r := midiRead d bytes
    if r.ret ≠ 0 then
      (match r.out with
       | some triple => [triple]
       | none => []) ++ decodeAll fuel r.d r.rest
    else []

/-! ## Derived notions used by the statements -/

/-- Number of queued events: ring distance from read cursor to write
cursor. -/
def midiDist (s : MidiState) : Nat :=
  (MIDI_BUFFER_SIZE + s.midiWriteOffset - s.midiReadOffset) % MIDI_BUFFER_SIZE

/-- The `k`-th event (0-based) that a drain starting at the current read
cursor consumes. -/
def consumedEvent (s : MidiState) (k : Nat) : MidiMessage :=
  s.midiMessages ((s.midiReadOffset + k) % MIDI_BUFFER_SIZE)

/-- An event whose record does not collide with the end-of-packet
sentinel `FF FF FF FF`. -/
def notSentinelEvent (m : MidiMessage) : Prop :=
  ¬(m.timestamp % 128 = 127 ∧ m.status = 255 ∧ m.byte1 = 255 ∧ m.byte2 = 255)

instance (m : MidiMessage) : Decidable (notSentinelEvent m) := by
  unfold notSentinelEvent; infer_instance

/-- The message a successful `midiSend` call with the given arguments
stores (the narrowing conversions of the struct field assignments). -/
def msgOf (x : Nat × Nat × Nat × Nat) : MidiMessage :=
  ⟨x.1 % 2 ^ 32, x.2.1 % 256, x.2.2.1 % 256, x.2.2.2 % 256⟩

/-- Run a sequence of `midiSend` calls, collecting the return values. -/
def runMidiSends (s : MidiState) :
    List (Nat × Nat × Nat × Nat) → MidiState × List Nat
  | [] => (s, [])
  | x :: rest =>
    let r1 := midiSend s x.1 x.2.1 x.2.2.1 x.2.2.2
    let r2 := runMidiSends r1.1 rest
    (r2.1, r1.2 :: r2.2)

/-- Spec-side description of the slots written by a run of successful
`midiSend` calls starting at write cursor `k`. -/
def fillFrom (msgs : Nat → MidiMessage) (k : Nat) :
    List (Nat × Nat × Nat × Nat) → (Nat → MidiMessage)
  | [] => msgs
  | x :: rest => fillFrom (Function.update msgs k (msgOf x)) (k + 1) rest

/-- The startup ring-buffer state: zeroed static arrays, both cursors 0. -/
def initialMidiState : MidiState := ⟨fun _ => ⟨0, 0, 0, 0⟩, 0, 0⟩

/-- A concrete buffer holding three note events (used by witnesses). -/
def exampleState : MidiState :=
  ⟨fun i => if i = 0 then ⟨100, 144, 60, 127⟩
    else if i = 1 then ⟨100, 144, 64, 0⟩
    else if i = 2 then ⟨300, 177, 7, 99⟩ else ⟨0, 0, 0, 0⟩, 3, 0⟩

/-- A buffer holding one event whose encoded record is the byte sequence
`FF FF FF FF`: timestamp 127 (so `ts % 128 = 127`), status `0xFF`, data
bytes `0xFF`. -/
def sentinelCollisionState : MidiState :=
  ⟨fun _ => ⟨127, 255, 255, 255⟩, 1, 0⟩

/-- A buffer holding two consecutive events with identical status and
identical timestamp (the premise of running-status compression). -/
def twinEventState : MidiState :=
  ⟨fun i => if i = 0 then ⟨100, 144, 60, 127⟩
    else if i = 1 then ⟨100, 144, 64, 0⟩ else ⟨0, 0, 0, 0⟩, 2, 0⟩

/-- State after `n` `midiSend` calls (with distinct arguments) from the
startup state. -/
def sendK : Nat → MidiState × Nat
  | 0 => (initialMidiState, 0)
  | k + 1 => midiSend (sendK k).1 k (k + 1) (k + 2) (k + 3)

/-- A full ring buffer: write cursor 19, read cursor 0 (one more stored
event would make the write cursor catch the read cursor). -/
def fullState : MidiState := ⟨fun _ => ⟨0, 0, 0, 0⟩, 19, 0⟩

/-- Twenty distinct concrete `midiSend` argument tuples. -/
def c3Inputs : List (Nat × Nat × Nat × Nat) :=
  (List.range 20).map (fun k => (k, k + 1, k + 2, k + 3))

/-! ## Sleep / power management model (Bean.cpp lines 92-287) -/

def MAX_SLEEP_POLL : Nat := 30

def MAX_DELAY : Nat := 30000

def MIN_SLEEP_TIME : Nat := 10

/-- The two analog-peripheral register bits handled by the deep-sleep
entry: the `ADEN` bit of `ADCSRA` and the `ACD` bit of `ACSR`. -/
structure AnalogRegs where
  aden : Bool
  acd : Bool
deriving Repr, DecidableEq

/-- ADC enabled ⟺ the ADEN bit is set (AVR datasheet). -/
def adcEnabled (r : AnalogRegs) : Bool := r.aden

/-- Analog comparator enabled ⟺ the ACD (Analog Comparator Disable) bit
is clear: setting ACD shuts the comparator down (AVR datasheet). -/
def acEnabled (r : AnalogRegs) : Bool := !r.acd

/-- The snapshot phase of the deep-sleep entry (lines 174-184):
`adc_was_set = bit_is_set(ADCSRA, ADEN)`, and if set, clear it;
`ac_was_set = bit_is_set(ACSR, ACD)`, and if set, clear it.  Returns the
two recorded flags and the register state held during the sleep. -/
def deepSleepDisablePhase (r : AnalogRegs) : (Bool × Bool) × AnalogRegs :=
  let adcWasSet := r.aden
  let r1 := if adcWasSet then { r with aden := false } else r
  let acWasSet := r1.acd
  let r2 := if acWasSet then { r1 with acd := false } else r1
  ((adcWasSet, acWasSet), r2)

/-- The restore phase after wake (lines 278-286): set ADEN back if
`adc_was_set`, set ACD back if `ac_was_set`. -/
def deepSleepRestorePhase (flags : Bool × Bool) (r : AnalogRegs) :
    AnalogRegs :=
  let r1 := if flags.1 then { r with aden := true } else r
  if flags.2 then { r1 with acd := true } else r1

/-- Observable effects of the sleep path, in program order. -/
inductive Effect where
  | pinInput
  | btUartSleepNormal
  | serialSleep (duration : Nat)
  | serialFlush
  | delayMs (n : Nat)
  | attachInt
  | detachInt
  | setSleepModePwrDown
  | cliE
  | seiE
  | sleepEnableE
  | sleepDisableE
  | bodDisableE
  | sleepCpuE
deriving Repr, DecidableEq

/-- The polling loop of `attemptSleep` (lines 120-125): up to
`MAX_SLEEP_POLL` one-millisecond delays, stopping as soon as the PIND3
line reads high; `line i` is the level sampled by the `i`-th poll. -/
def pollLoop (line : Nat → Bool) : Nat → Nat → Bool × List Effect
  | _, 0 => (false, [])
  | idx, rem + 1 =>
    if line idx then (true, [Effect.delayMs 1])
    else
      let rest := pollLoop line (idx + 1) rem
      (rest.1, Effect.delayMs 1 :: rest.2)

/-- `BeanClass::attemptSleep` (lines 108-128): set the interrupt line to
input, send the sleep request, flush, then poll the line. -/
def attemptSleep (duration : Nat) (line : Nat → Bool) : Bool × List Effect :=
  let p := pollLoop line 0 MAX_SLEEP_POLL
  (p.1, Effect.pinInput :: Effect.serialSleep duration ::
    Effect.serialFlush :: p.2)

/-- The retry loop of `sleep` for requests above `MAX_DELAY` (lines
153-159): shrink the remaining duration by the poll budget (the C
conditional `duration_ms >= MAX_SLEEP_POLL ? duration_ms -
MAX_SLEEP_POLL : 0` is exactly truncated subtraction) and re-attempt
until the line asserts or the duration reaches 0.  `lines i` is the line
oracle seen by the `i`-th `attemptSleep` call of the whole `sleep`
call. -/
def sleepRetryLoop (lines : Nat → Nat → Bool) (callIdx duration : Nat) :
    Bool × List Effect :=
  if _h : duration > 0 then
    if (attemptSleep (duration - MAX_SLEEP_POLL) (lines callIdx)).1 then
      (true, (attemptSleep (duration - MAX_SLEEP_POLL) (lines callIdx)).2)
    else
      ((sleepRetryLoop lines (callIdx + 1) (duration - MAX_SLEEP_POLL)).1,
       (attemptSleep (duration - MAX_SLEEP_POLL) (lines callIdx)).2 ++
         (sleepRetryLoop lines (callIdx + 1) (duration - MAX_SLEEP_POLL)).2)
  else (false, [])
termination_by duration
decreasing_by
  all_goals simp only [MAX_SLEEP_POLL]
  all_goals omega

/-- The deep-sleep entry and wake path of `sleep` (lines 171-287),
reached only when an `attemptSleep` reported the line asserted: disable
phase, wake-interrupt arming, power-down mode, the check-then-sleep
region (`pind3` is the level read by the masked re-check of line 267),
unconditional `sei`, detach, restore phase. -/
def sleepDeepSection (pind3 : Bool) (r : AnalogRegs) :
    AnalogRegs × List Effect :=
  let d := deepSleepDisablePhase r
  let mid : List Effect :=
    if pind3 then
      [Effect.sleepEnableE, Effect.bodDisableE, Effect.seiE,
       Effect.sleepCpuE, Effect.sleepDisableE]
    else []
  (deepSleepRestorePhase d.1 d.2,
   Effect.attachInt :: Effect.setSleepModePwrDown :: Effect.cliE ::
     (mid ++ [Effect.seiE, Effect.detachInt]))

/-- `BeanClass::sleep` (lines 134-287) as a function of the requested
duration, a per-call line-level oracle, the level read by the masked
re-check, and the analog register state.  Returns the final register
state and the effect trace. -/
def sleep (duration : Nat) (lines : Nat → Nat → Bool) (pind3 : Bool)
    (r : AnalogRegs) : AnalogRegs × List Effect :=
  let pre := [Effect.pinInput, Effect.btUartSleepNormal]
  if duration < MIN_SLEEP_TIME then (r, pre ++ [Effect.delayMs duration])
  else
    let a1 := attemptSleep duration (lines 0)
    let retried : Bool × List Effect :=
      if ¬a1.1 ∧ duration > MAX_DELAY then
        sleepRetryLoop lines 1 duration
      else if ¬a1.1 ∧ duration > MAX_SLEEP_POLL then
        (false, [Effect.delayMs (duration - MAX_SLEEP_POLL)])
      else (a1.1, [])
    if retried.1 = false then (r, pre ++ a1.2 ++ retried.2)
    else
      let d := sleepDeepSection pind3 r
      (d.1, pre ++ a1.2 ++ retried.2 ++ d.2)

/-! ## Interrupt machine for the check-then-sleep region (lines 264-274)

The semantics follows the avr-libc manual passage quoted verbatim in the
source (lines 191-249): manipulating the sleep-enable bit and issuing the
sleep instruction are separate steps; the instruction directly after
`sei` is guaranteed to execute before any pending interrupt is serviced;
a wake event latches the interrupt flag, and the attached handler
(`wakeUp`, a no-op) services it once.  The adversary chooses `arrival`,
the instant at which the co-processor drops the PIND3 line to wake the
CPU: the line reads high strictly before `arrival` and low from
`arrival` on. -/

/-- Machine state: `time` counts executed instructions, `iflag` the
global interrupt-enable bit, `pending` the latched wake-interrupt flag,
`consumed` whether the single wake event has been serviced, `inhibit`
the one-instruction service inhibition after `sei`. -/
structure Mach where
  time : Nat
  iflag : Bool
  pending : Bool
  consumed : Bool
  inhibit : Bool
deriving Repr, DecidableEq

/-- Latch the wake interrupt once the event has arrived (the flag is
latched by hardware regardless of the interrupt-enable bit). -/
def latch (arrival : Nat) (m : Mach) : Mach :=
  if arrival ≤ m.time ∧ ¬m.consumed then { m with pending := true } else m

/-- Deliver the interrupt between instructions: when unmasked, latched,
and not inhibited by a directly preceding `sei`, the no-op handler runs
and the event counts as consumed. -/
def service (m : Mach) : Mach :=
  if m.iflag ∧ m.pending ∧ ¬m.inhibit then
    { m with pending := false, consumed := true }
  else m

/-- One instruction boundary: latch a newly arrived event, then deliver
a serviceable interrupt. -/
def boundary (arrival : Nat) (m : Mach) : Mach :=
  service (latch arrival m)

/-- Execute one ordinary instruction: `setI = some b` writes the
interrupt-enable bit (`cli`/`sei`), `none` leaves it; only `sei` sets
the one-instruction service inhibition. -/
def execPlain (arrival : Nat) (setI : Option Bool) (m : Mach) : Mach :=
  let m1 := boundary arrival m
  { m1 with time := m1.time + 1,
            iflag := setI.getD m1.iflag,
            inhibit := setI = some true }

/-- Execute `sleep_cpu`: the CPU halts until the wake interrupt can be
taken.  With interrupts masked, or with the single wake event already
consumed and no longer latched, nothing can ever wake the CPU (`none`).
Otherwise it resumes: immediately if the event is already latched, else
when the event arrives. -/
def execSleepCpu (arrival : Nat) (m : Mach) : Option Mach :=
  let m1 := boundary arrival m
  if m1.iflag = false then none
  else if m1.pending then
    some { m1 with time := m1.time + 1, inhibit := false }
  else if m1.consumed = false then
    some { m1 with time := max (m1.time + 1) (arrival + 1),
                   pending := true, inhibit := false }
  else none

/-- The check-then-sleep region (lines 266-274): `cli; if
(bit_is_set(PIND, 3)) { sleep_enable(); sleep_bod_disable(); sei();
sleep_cpu(); sleep_disable(); } sei();` run against a wake event
arriving at `arrival`.  The `bit_is_set` check reads the line level at
the moment it executes (high iff the event has not yet arrived).
Returns `none` if the CPU is left asleep with no way to wake, otherwise
the taken branch and the final machine state. -/
def checkThenSleep (arrival : Nat) : Option (Bool × Mach) :=
  let m0 : Mach := ⟨0, true, false, false, false⟩
  let m1 := execPlain arrival (some false) m0
  let m2 := boundary arrival m1
  let lineHigh := m2.time < arrival
  let m3 : Mach := { m2 with time := m2.time + 1, inhibit := false }
  if lineHigh then
    let m4 := execPlain arrival none m3
    let m5 := execPlain arrival none m4
    let m6 := execPlain arrival (some true) m5
    match execSleepCpu arrival m6 with
    | none => none
    | some m7 =>
      let m8 := execPlain arrival none m7
      let m9 := execPlain arrival (some true) m8
      some (true, m9)
  else
    some (false, execPlain arrival (some true) m3)

/-! ## Bit-level helper lemmas -/

set_option maxRecDepth 4096 in
theorem lor128_eq : ∀ x < 256, x ||| 128 = x % 128 + 128 := by decide

theorem add128_and128_ne : ∀ q < 128, (q + 128) &&& 128 ≠ 0 := by decide

theorem msgTs_eq (m : MidiMessage) : msgTs m = m.timestamp % 128 + 128 := by
  have h1 : m.timestamp % 256 < 256 := Nat.mod_lt _ (by norm_num)
  unfold msgTs
  rw [lor128_eq _ h1]
  congr 1
  exact Nat.mod_mod_of_dvd _ (by norm_num)

theorem msgTs_and128_ne (m : MidiMessage) : msgTs m &&& 128 ≠ 0 := by
  rw [msgTs_eq]
  exact add128_and128_ne _ (Nat.mod_lt _ (by norm_num))

theorem msgTs_ne_zero (m : MidiMessage) : msgTs m ≠ 0 := by
  rw [msgTs_eq]; omega

theorem msgTs_eq_255_iff (m : MidiMessage) :
    msgTs m = 255 ↔ m.timestamp % 128 = 127 := by
  rw [msgTs_eq]; omega

/-! ## Encode-side characterization: the running-status branch of
`midiPacketSendLoop` is dead code (the C locals `lastStatus`/`lastTime`
stay `-1` and a `uint8_t` status can never compare equal to `-1`), so
every iteration emits exactly one 4-byte record. -/

theorem midiPacketSendLoop_step (msgs : Nat → MidiMessage) (w r byteOffset : Nat)
    (packet : List Nat) (hne : r ≠ w) :
    midiPacketSendLoop msgs w (-1) (-1) r byteOffset packet =
      if byteOffset + 4 + 4 > BLE_PACKET_SIZE then
        ((r + 1) % MIDI_BUFFER_SIZE, byteOffset + 4,
         packet ++ recordBytes (msgs r))
      else
        midiPacketSendLoop msgs w (-1) (-1)
          ((r + 1) % MIDI_BUFFER_SIZE) (byteOffset + 4)
          (packet ++ recordBytes (msgs r)) := by
  rw [midiPacketSendLoop]
  rw [if_neg hne, if_neg]
  intro h
  have := h.1
  omega

theorem midiPacketSendLoop_base (msgs : Nat → MidiMessage) (w byteOffset : Nat)
    (packet : List Nat) :
    midiPacketSendLoop msgs w (-1) (-1) w byteOffset packet =
      (w, byteOffset, packet) := by
  rw [midiPacketSendLoop]
  simp

theorem midiPacketSendLoop_shape (msgs : Nat → MidiMessage) (w r : Nat)
    (packet0 : List Nat) (hr : r < 20) (hw : w < 20) (hne : r ≠ w) :
    midiPacketSendLoop msgs w (-1) (-1) r 1 packet0 =
      ((r + min ((20 + w - r) % 20) 4) % 20,
       1 + 4 * min ((20 + w - r) % 20) 4,
       packet0 ++ (List.range (min ((20 + w - r) % 20) 4)).flatMap
         (fun k => recordBytes (msgs ((r + k) % 20)))) := by
  have hcase : (20 + w - r) % 20 = 1 ∨ (20 + w - r) % 20 = 2 ∨
      (20 + w - r) % 20 = 3 ∨ 4 ≤ (20 + w - r) % 20 := by omega
  rcases hcase with h | h | h | h
  · have hmin : min ((20 + w - r) % 20) 4 = 1 := by omega
    have h1w : (r + 1) % 20 = w := by omega
    have hr0 : (r + 0) % 20 = r := by omega
    have hrr : r % 20 = r := Nat.mod_eq_of_lt hr
    have hrange : List.range 1 = [0] := rfl
    rw [hmin, midiPacketSendLoop_step msgs w r 1 packet0 hne]
    simp only [MIDI_BUFFER_SIZE, BLE_PACKET_SIZE]
    rw [if_neg (by norm_num), h1w, midiPacketSendLoop_base]
    simp [hrange, hrr, h1w]
  · have hmin : min ((20 + w - r) % 20) 4 = 2 := by omega
    have h1 : (r + 1) % 20 ≠ w := by omega
    have h2w : ((r + 1) % 20 + 1) % 20 = w := by omega
    have hw2 : (r + 2) % 20 = w := by omega
    have hr0 : (r + 0) % 20 = r := by omega
    rw [hmin, midiPacketSendLoop_step msgs w r 1 packet0 hne]
    simp only [MIDI_BUFFER_SIZE, BLE_PACKET_SIZE]
    rw [if_neg (by norm_num),
        midiPacketSendLoop_step msgs w ((r + 1) % 20) 5 _ h1]
    simp only [MIDI_BUFFER_SIZE, BLE_PACKET_SIZE]
    rw [if_neg (by norm_num), h2w, midiPacketSendLoop_base]
    have hrr : r % 20 = r := Nat.mod_eq_of_lt hr
    have hrange : List.range 2 = [0, 1] := rfl
    simp [hrange, hrr, hw2, List.append_assoc]
  · have hmin : min ((20 + w - r) % 20) 4 = 3 := by omega
    have h1 : (r + 1) % 20 ≠ w := by omega
    have h2 : ((r + 1) % 20 + 1) % 20 = (r + 2) % 20 := by omega
    have h2ne : (r + 2) % 20 ≠ w := by omega
    have h3w : ((r + 2) % 20 + 1) % 20 = w := by omega
    have hw3 : (r + 3) % 20 = w := by omega
    have hr0 : (r + 0) % 20 = r := by omega
    rw [hmin, midiPacketSendLoop_step msgs w r 1 packet0 hne]
    simp only [MIDI_BUFFER_SIZE, BLE_PACKET_SIZE]
    rw [if_neg (by norm_num),
        midiPacketSendLoop_step msgs w ((r + 1) % 20) 5 _ h1]
    simp only [MIDI_BUFFER_SIZE, BLE_PACKET_SIZE]
    rw [if_neg (by norm_num), h2,
        midiPacketSendLoop_step msgs w ((r + 2) % 20) 9 _ h2ne]
    simp only [MIDI_BUFFER_SIZE, BLE_PACKET_SIZE]
    rw [if_neg (by norm_num), h3w, midiPacketSendLoop_base]
    have hrr : r % 20 = r := Nat.mod_eq_of_lt hr
    have hrange : List.range 3 = [0, 1, 2] := rfl
    simp [hrange, hrr, hw3, List.append_assoc]
  · have hmin : min ((20 + w - r) % 20) 4 = 4 := by omega
    have h1 : (r + 1) % 20 ≠ w := by omega
    have h2 : ((r + 1) % 20 + 1) % 20 = (r + 2) % 20 := by omega
    have h2ne : (r + 2) % 20 ≠ w := by omega
    have h3 : ((r + 2) % 20 + 1) % 20 = (r + 3) % 20 := by omega
    have h3ne : (r + 3) % 20 ≠ w := by omega
    have h4 : ((r + 3) % 20 + 1) % 20 = (r + 4) % 20 := by omega
    have hr0 : (r + 0) % 20 = r := by omega
    rw [hmin, midiPacketSendLoop_step msgs w r 1 packet0 hne]
    simp only [MIDI_BUFFER_SIZE, BLE_PACKET_SIZE]
    rw [if_neg (by norm_num),
        midiPacketSendLoop_step msgs w ((r + 1) % 20) 5 _ h1]
    simp only [MIDI_BUFFER_SIZE, BLE_PACKET_SIZE]
    rw [if_neg (by norm_num), h2,
        midiPacketSendLoop_step msgs w ((r + 2) % 20) 9 _ h2ne]
    simp only [MIDI_BUFFER_SIZE, BLE_PACKET_SIZE]
    rw [if_neg (by norm_num), h3,
        midiPacketSendLoop_step msgs w ((r + 3) % 20) 13 _ h3ne]
    simp only [MIDI_BUFFER_SIZE, BLE_PACKET_SIZE]
    rw [if_pos (by norm_num), h4]
    have hrr : r % 20 = r := Nat.mod_eq_of_lt hr
    have hrange : List.range 4 = [0, 1, 2, 3] := rfl
    simp [hrange, hrr, List.append_assoc]

theorem midiPacketSend_shape (s : MidiState)
    (hr : s.midiReadOffset < 20) (hw : s.midiWriteOffset < 20)
    (hne : s.midiReadOffset ≠ s.midiWriteOffset) :
    midiPacketSend s =
      ({s with midiReadOffset := (s.midiReadOffset + min (midiDist s) 4) % 20},
       1 + 4 * min (midiDist s) 4,
       headTs (consumedEvent s 0).timestamp ::
         (List.range (min (midiDist s) 4)).flatMap
           (fun k => recordBytes (consumedEvent s k))) := by
  simp only [midiPacketSend]
  rw [if_neg hne,
      midiPacketSendLoop_shape s.midiMessages s.midiWriteOffset
        s.midiReadOffset _ hr hw hne]
  simp only [midiDist, MIDI_BUFFER_SIZE, consumedEvent]
  have hrr : s.midiReadOffset % 20 = s.midiReadOffset := Nat.mod_eq_of_lt hr
  simp [hrr]

/-! ## Decode-side characterization -/

theorem decodeAll_records (L : List MidiMessage) :
    ∀ (ls fuel : Nat), L.length < fuel →
      (∀ m ∈ L, notSentinelEvent m) →
      decodeAll fuel ⟨false, ls⟩ (L.flatMap recordBytes) =
        L.map (fun m => (m.status, m.byte1, m.byte2)) := by
  induction L with
  | nil =>
    intro ls fuel hf _
    match fuel with
    | fuel + 1 => simp [decodeAll, midiRead]
  | cons m L ih =>
    intro ls fuel hf hs
    match fuel with
    | fuel + 1 =>
      have hand : msgTs m &&& 128 ≠ 0 := msgTs_and128_ne m
      have hret : msgTs m ≠ 0 := msgTs_ne_zero m
      have hsent : ¬(msgTs m = 255 ∧ m.status = 255 ∧
          m.byte1 = 255 ∧ m.byte2 = 255) := by
        intro hc
        exact hs m (by simp)
          ⟨(msgTs_eq_255_iff m).mp hc.1, hc.2.1, hc.2.2.1, hc.2.2.2⟩
      have hrest :
          decodeAll fuel ⟨false, m.status⟩ (L.flatMap recordBytes) =
            L.map (fun x => (x.status, x.byte1, x.byte2)) :=
        ih m.status fuel (by simpa using hf)
          (fun x hx => hs x (List.mem_cons_of_mem _ hx))
      simp only [List.flatMap_cons, recordBytes, List.cons_append,
        List.nil_append, decodeAll, midiRead]
      simp [hand, hsent, hret, hrest]

theorem decodeAll_header (m : MidiMessage) (L : List MidiMessage)
    (hdrByte ls fuel : Nat) (hf : L.length + 1 < fuel)
    (hs : ∀ x ∈ m :: L, notSentinelEvent x) :
    decodeAll fuel ⟨true, ls⟩ (hdrByte :: (m :: L).flatMap recordBytes) =
      (m :: L).map (fun x => (x.status, x.byte1, x.byte2)) := by
  match fuel with
  | fuel + 1 =>
    have hand : msgTs m &&& 128 ≠ 0 := msgTs_and128_ne m
    have hret : msgTs m ≠ 0 := msgTs_ne_zero m
    have hsent : ¬(msgTs m = 255 ∧ m.status = 255 ∧
        m.byte1 = 255 ∧ m.byte2 = 255) := by
      intro hc
      exact hs m (by simp)
        ⟨(msgTs_eq_255_iff m).mp hc.1, hc.2.1, hc.2.2.1, hc.2.2.2⟩
    have hrest :
        decodeAll fuel ⟨false, m.status⟩ (L.flatMap recordBytes) =
          L.map (fun x => (x.status, x.byte1, x.byte2)) :=
      decodeAll_records L m.status fuel (by omega)
        (fun x hx => hs x (List.mem_cons_of_mem _ hx))
    simp only [List.flatMap_cons, recordBytes, List.cons_append,
      List.nil_append, decodeAll, midiRead]
    simp [hand, hsent, hret, hrest]

/-- Element `4*k` of a concatenation of 4-byte records is the record
timestamp byte of the `k`-th message. -/
theorem flatMap_recordBytes_getElem (L : List MidiMessage) :
    ∀ k, (L.flatMap recordBytes)[4 * k]? = (L[k]?).map msgTs := by
  induction L with
  | nil => intro k; simp
  | cons m L ih =>
    intro k
    match k with
    | 0 => simp [recordBytes]
    | k + 1 =>
      have hlen : (recordBytes m).length = 4 := rfl
      have hidx : 4 * (k + 1) = (recordBytes m).length + 4 * k := by
        rw [hlen]; ring
      rw [List.flatMap_cons, hidx, List.getElem?_append_right (by omega)]
      simpa using ih k

theorem decodeAll_packet (L : List MidiMessage) (hdrByte ls fuel : Nat)
    (hne : L ≠ []) (hf : L.length < fuel)
    (hs : ∀ x ∈ L, notSentinelEvent x) :
    decodeAll fuel ⟨true, ls⟩ (hdrByte :: L.flatMap recordBytes) =
      L.map (fun x => (x.status, x.byte1, x.byte2)) := by
  match L, hne with
  | m :: L, _ =>
    exact decodeAll_header m L hdrByte ls fuel (by simpa using hf) hs

/-! ## Claim C1: drain-then-poll round trip -/

/-- C1 (amended): for every non-empty ring buffer none of whose consumed
events collides with the end-of-packet sentinel (timestamp ≡ 127 mod 128
with status = data1 = data2 = 0xFF), running `midiPacketSend` and feeding
the produced packet bytes to repeated `midiRead` calls on a fresh decoder
session reconstructs every consumed event's (status, data1, data2) triple
in the original enqueue order; the read cursor advances by exactly the
number of consumed events, and the record byte at offset `1 + 4*k` of the
packet carries the `k`-th consumed timestamp modulo the 7-bit window. -/
theorem c1_drain_then_poll_roundtrip (s : MidiState) (ls : Nat)
    (hr : s.midiReadOffset < 20) (hw : s.midiWriteOffset < 20)
    (hne : s.midiReadOffset ≠ s.midiWriteOffset)
    (hsent : ∀ k < min (midiDist s) 4, notSentinelEvent (consumedEvent s k)) :
    decodeAll 5 ⟨true, ls⟩ (midiPacketSend s).2.2 =
      (List.range (min (midiDist s) 4)).map
        (fun k => ((consumedEvent s k).status, (consumedEvent s k).byte1,
          (consumedEvent s k).byte2)) ∧
    (midiPacketSend s).1.midiReadOffset =
      (s.midiReadOffset + min (midiDist s) 4) % 20 ∧
    ∀ k < min (midiDist s) 4,
      ((midiPacketSend s).2.2)[1 + 4 * k]? =
        some ((consumedEvent s k).timestamp % 128 + 128) := by
  have hd1 : 1 ≤ midiDist s := by
    simp only [midiDist, MIDI_BUFFER_SIZE]
    omega
  have hshape := midiPacketSend_shape s hr hw hne
  have hn1 : 1 ≤ min (midiDist s) 4 := by omega
  have hn4 : min (midiDist s) 4 ≤ 4 := by omega
  have hbody : (List.range (min (midiDist s) 4)).flatMap
        (fun k => recordBytes (consumedEvent s k)) =
      ((List.range (min (midiDist s) 4)).map (consumedEvent s)).flatMap
        recordBytes :=
    (List.flatMap_map (consumedEvent s) recordBytes _).symm
  rw [hshape]
  dsimp only
  refine ⟨?_, rfl, ?_⟩
  · rw [hbody, decodeAll_packet]
    · rw [List.map_map]
      rfl
    · simp only [ne_eq, List.map_eq_nil_iff, List.range_eq_nil]
      omega
    · simp only [List.length_map, List.length_range]
      omega
    · intro x hx
      obtain ⟨k, hk, rfl⟩ := List.mem_map.mp hx
      exact hsent k (List.mem_range.mp hk)
  · intro k hk
    have hidx : 1 + 4 * k = 4 * k + 1 := by omega
    rw [hidx, List.getElem?_cons_succ, hbody, flatMap_recordBytes_getElem,
      List.getElem?_map, List.getElem?_range hk]
    simp [msgTs_eq]

/-- C1 counterexample for the claim as stated: a buffer holding exactly
one event with timestamp 127 and status/data bytes 0xFF.  `midiPacketSend`
consumes it (read cursor advances to 1, five packet bytes are produced),
but a fresh decoder session fed the packet reconstructs nothing: the
event's record is the literal sentinel byte sequence. -/
theorem c1_sentinel_collision_counterexample :
    (midiPacketSend sentinelCollisionState).1.midiReadOffset = 1 ∧
    (midiPacketSend sentinelCollisionState).2.1 = 5 ∧
    decodeAll 5 ⟨true, 0⟩ (midiPacketSend sentinelCollisionState).2.2 = [] := by
  rw [midiPacketSend_shape sentinelCollisionState (by decide) (by decide)
    (by decide)]
  decide

/-- Witness for C1: the amended round trip evaluated at a concrete
three-event buffer. -/
theorem c1_drain_then_poll_roundtrip_witness :
    (exampleState.midiReadOffset < 20 ∧ exampleState.midiWriteOffset < 20 ∧
      exampleState.midiReadOffset ≠ exampleState.midiWriteOffset ∧
      ∀ k < min (midiDist exampleState) 4,
        notSentinelEvent (consumedEvent exampleState k)) ∧
    (decodeAll 5 ⟨true, 0⟩ (midiPacketSend exampleState).2.2 =
      (List.range (min (midiDist exampleState) 4)).map
        (fun k => ((consumedEvent exampleState k).status,
          (consumedEvent exampleState k).byte1,
          (consumedEvent exampleState k).byte2)) ∧
    (midiPacketSend exampleState).1.midiReadOffset =
      (exampleState.midiReadOffset + min (midiDist exampleState) 4) % 20 ∧
    ∀ k < min (midiDist exampleState) 4,
      ((midiPacketSend exampleState).2.2)[1 + 4 * k]? =
        some ((consumedEvent exampleState k).timestamp % 128 + 128)) :=
  ⟨⟨by decide, by decide, by decide, by decide⟩,
    c1_drain_then_poll_roundtrip exampleState 0 (by decide) (by decide)
      (by decide) (by decide)⟩

/-! ## Claim C2: running-status compression on the encode path -/

/-- C2, the code evaluated at the failing input: two consecutive queued
events with identical status (144) and identical timestamp (100) still
produce a full 4-byte record for the second event — 9 packet bytes in
total instead of the 7 that running-status compression would produce.
The compression branch of `midiPacketSend` is dead because its
`lastStatus`/`lastTime` locals are initialised to -1 and never updated
inside the loop. -/
theorem c2_running_status_compression_dead :
    (midiPacketSend twinEventState).2.1 = 9 ∧
    (midiPacketSend twinEventState).2.2 =
      [128, 228, 144, 60, 127, 228, 144, 64, 0] := by
  rw [midiPacketSend_shape twinEventState (by decide) (by decide) (by decide)]
  decide

/-! ## Claim C4: enqueue into a full buffer is a no-op that signals 1 -/

/-- C4: whenever the ring buffer is full (advancing the write cursor
would make it equal the read cursor), `midiSend` returns 1 and leaves the
entire state — cursors and stored events — unchanged. -/
theorem c4_full_send_no_mutation (s : MidiState) (t st b1 b2 : Nat)
    (hfull : (s.midiWriteOffset + 1) % MIDI_BUFFER_SIZE = s.midiReadOffset) :
    midiSend s t st b1 b2 = (s, 1) := by
  simp [midiSend, hfull]

/-- Witness for C4 at a concrete full buffer (write cursor 19, read
cursor 0). -/
theorem c4_full_send_no_mutation_witness :
    ((fullState.midiWriteOffset + 1) % MIDI_BUFFER_SIZE =
      fullState.midiReadOffset) ∧
    midiSend fullState 7 144 60 127 = (fullState, 1) :=
  ⟨by decide, c4_full_send_no_mutation fullState 7 144 60 127 (by decide)⟩

/-! ## Claim C9: the end-of-packet sentinel is never surfaced -/

/-- C9: whenever a `midiRead` call consumes the literal 4-byte sequence
FF FF FF FF — whether already mid-packet or consuming the packet header
in the same call — it resets the session to `packetBegin = true` and
returns 0 (no event), never surfacing the sentinel as a decoded event. -/
theorem c9_sentinel_resets_and_returns_zero (ls hdrByte : Nat)
    (rest : List Nat) :
    midiRead ⟨false, ls⟩ (255 :: 255 :: 255 :: 255 :: rest) =
      ⟨⟨true, 255⟩, rest, some (255, 255, 255), 0⟩ ∧
    midiRead ⟨true, ls⟩ (hdrByte :: 255 :: 255 :: 255 :: 255 :: rest) =
      ⟨⟨true, 255⟩, rest, some (255, 255, 255), 0⟩ := by
  have hlen : (hdrByte :: 255 :: 255 :: 255 :: 255 :: rest).length > 4 := by
    simp
  constructor
  · simp [midiRead]
  · simp [midiRead, hlen]

/-! ## Claim C3: ring capacity -/

theorem fillFrom_apply_lt (inputs : List (Nat × Nat × Nat × Nat)) :
    ∀ (msgs : Nat → MidiMessage) (k i : Nat), i < k →
      fillFrom msgs k inputs i = msgs i := by
  induction inputs with
  | nil => intro msgs k i _; rfl
  | cons x rest ih =>
    intro msgs k i hi
    simp only [fillFrom]
    rw [ih _ (k + 1) i (by omega), Function.update_noteq (by omega)]

theorem fillFrom_apply_ge (inputs : List (Nat × Nat × Nat × Nat)) :
    ∀ (msgs : Nat → MidiMessage) (k j : Nat) (hj : j < inputs.length),
      fillFrom msgs k inputs (k + j) = msgOf (inputs.get ⟨j, hj⟩) := by
  induction inputs with
  | nil => intro _ _ j hj; simp at hj
  | cons x rest ih =>
    intro msgs k j hj
    match j with
    | 0 =>
      simp only [fillFrom, Nat.add_zero]
      rw [fillFrom_apply_lt rest _ (k + 1) k (by omega), Function.update_same]
      rfl
    | j + 1 =>
      simp only [fillFrom]
      have hstep : k + (j + 1) = (k + 1) + j := by omega
      rw [hstep, ih _ (k + 1) j (by simpa using hj)]
      rfl

theorem runMidiSends_from (inputs : List (Nat × Nat × Nat × Nat)) :
    ∀ (msgs : Nat → MidiMessage) (k : Nat), k ≤ 19 →
      runMidiSends ⟨msgs, k, 0⟩ inputs =
        (⟨fillFrom msgs k (inputs.take (19 - k)),
          min (k + inputs.length) 19, 0⟩,
         List.replicate (min inputs.length (19 - k)) 0 ++
           List.replicate (inputs.length - (19 - k)) 1) := by
  induction inputs with
  | nil =>
    intro msgs k hk
    have h1 : min (k + 0) 19 = k := by omega
    simp [runMidiSends, fillFrom, h1]
    omega
  | cons x rest ih =>
    intro msgs k hk
    by_cases hk19 : k = 19
    · subst hk19
      have hr1 : midiSend ⟨msgs, 19, 0⟩ x.1 x.2.1 x.2.2.1 x.2.2.2 =
          (⟨msgs, 19, 0⟩, 1) := by
        simp [midiSend, MIDI_BUFFER_SIZE]
      have e1 : min (19 + rest.length) 19 = 19 := by omega
      have e2 : min (19 + (rest.length + 1)) 19 = 19 := by omega
      simp only [runMidiSends, hr1]
      rw [ih msgs 19 (by omega)]
      simp [e1, e2, List.replicate_succ]
    · have hklt : k < 19 := by omega
      have hmod : (k + 1) % 20 = k + 1 := by omega
      have hr1 : midiSend ⟨msgs, k, 0⟩ x.1 x.2.1 x.2.2.1 x.2.2.2 =
          (⟨Function.update msgs k (msgOf x), k + 1, 0⟩, 0) := by
        simp only [midiSend, MIDI_BUFFER_SIZE]
        rw [if_neg (by omega), hmod]
        rfl
      simp only [runMidiSends, hr1]
      rw [ih _ (k + 1) (by omega)]
      simp only [List.length_cons]
      have e1 : 19 - k = (19 - (k + 1)) + 1 := by omega
      rw [e1, List.take_succ_cons]
      simp only [fillFrom]
      have e3 : min (rest.length + 1) ((19 - (k + 1)) + 1) =
          min rest.length (19 - (k + 1)) + 1 := by omega
      have e4 : (rest.length + 1) - ((19 - (k + 1)) + 1) =
          rest.length - (19 - (k + 1)) := by omega
      have e5 : k + (rest.length + 1) = (k + 1) + rest.length := by omega
      rw [e3, e4, e5]
      simp [List.replicate_succ]

/-- C3 counterexample for the claim as stated (N = 20): from the startup
state already the 20th `midiSend` call fails (returns 1), and after 21
calls the buffer holds only 19 events — it never retains the first 20. -/
theorem c3_capacity_counterexample :
    (sendK 20).2 = 1 ∧ midiDist (sendK 21).1 = 19 := by decide

/-- C3 (amended): the capacity-20 ring stores at most 19 events.  From
the startup state, for every sequence of at least 20 `midiSend` calls,
the first 19 calls succeed (return 0), the 20th and every later call
fails (returns 1), and afterwards the buffer retains exactly the first
19 events in order (write cursor 19, read cursor 0, slot `j` holding the
`j`-th argument tuple). -/
theorem c3_capacity_amended (inputs : List (Nat × Nat × Nat × Nat))
    (hlen : 20 ≤ inputs.length) :
    (runMidiSends initialMidiState inputs).2 =
      List.replicate 19 0 ++ List.replicate (inputs.length - 19) 1 ∧
    (runMidiSends initialMidiState inputs).1.midiWriteOffset = 19 ∧
    (runMidiSends initialMidiState inputs).1.midiReadOffset = 0 ∧
    ∀ j < 19, ∀ x, inputs[j]? = some x →
      (runMidiSends initialMidiState inputs).1.midiMessages j = msgOf x := by
  have h0 := runMidiSends_from inputs (fun _ => ⟨0, 0, 0, 0⟩) 0 (by omega)
  rw [show initialMidiState = ⟨fun _ => ⟨0, 0, 0, 0⟩, 0, 0⟩ from rfl, h0]
  have e1 : min inputs.length (19 - 0) = 19 := by omega
  have e2 : min (0 + inputs.length) 19 = 19 := by omega
  refine ⟨?_, ?_, rfl, ?_⟩
  · dsimp only
    rw [show inputs.length ⊓ (19 - 0) = 19 from by omega]
  · dsimp only
    omega
  intro j hj x hx
  have hjlen : j < (inputs.take (19 - 0)).length := by
    simp only [List.length_take]
    omega
  have hfill := fillFrom_apply_ge (inputs.take (19 - 0))
    (fun _ => ⟨0, 0, 0, 0⟩) 0 j hjlen
  simp only [Nat.zero_add] at hfill
  dsimp only
  rw [hfill]
  have hg : (inputs.take (19 - 0))[j]? = some x := by
    rw [List.getElem?_take, if_pos (by omega)]
    exact hx
  have hg2 : (inputs.take (19 - 0))[j]? =
      some ((inputs.take (19 - 0)).get ⟨j, hjlen⟩) := by
    simp [List.getElem?_eq_getElem hjlen]
  rw [hg] at hg2
  rw [← Option.some.injEq x ((inputs.take (19 - 0)).get ⟨j, hjlen⟩) |>.mp hg2]

/-- Witness for C3 (amended) at twenty concrete `midiSend` calls. -/
theorem c3_capacity_amended_witness :
    20 ≤ c3Inputs.length ∧
    ((runMidiSends initialMidiState c3Inputs).2 =
      List.replicate 19 0 ++ List.replicate (c3Inputs.length - 19) 1 ∧
    (runMidiSends initialMidiState c3Inputs).1.midiWriteOffset = 19 ∧
    (runMidiSends initialMidiState c3Inputs).1.midiReadOffset = 0 ∧
    ∀ j < 19, ∀ x, c3Inputs[j]? = some x →
      (runMidiSends initialMidiState c3Inputs).1.midiMessages j = msgOf x) :=
  ⟨by decide, c3_capacity_amended c3Inputs (by decide)⟩

/-! ## Claim C10: running-status return value collides with 0 -/

/-- C10: a `midiRead` call that takes the running-status branch (peeked
byte with high bit clear, at least two bytes buffered) consumes two bytes,
writes (lastStatus, byte1, byte2) through the output pointers, and returns
the peeked first data byte itself — so when that byte is 0x00 the call
returns 0, indistinguishable from the no-event return (as on an empty
buffer), despite having consumed input and written the outputs. -/
theorem c10_running_status_returns_peek (ls b1 b2 : Nat) (rest : List Nat)
    (hbit : b1 &&& 128 = 0) :
    midiRead ⟨false, ls⟩ (b1 :: b2 :: rest) =
      ⟨⟨false, ls⟩, rest, some (ls, b1, b2), b1⟩ ∧
    (midiRead ⟨false, ls⟩ []).ret = 0 := by
  constructor
  · simp [midiRead, hbit]
  · simp [midiRead]

/-- Witness for C10 with data byte 0: the call consumes two bytes, writes
(144, 0, 9) to the outputs, and returns 0 exactly like the empty-buffer
call. -/
theorem c10_running_status_returns_peek_witness :
    ((0 : Nat) &&& 128 = 0) ∧
    (midiRead ⟨false, 144⟩ (0 :: 9 :: []) =
      ⟨⟨false, 144⟩, [], some (144, 0, 9), 0⟩ ∧
    (midiRead ⟨false, 144⟩ []).ret = 0) :=
  ⟨by decide, c10_running_status_returns_peek 144 0 9 [] (by decide)⟩

/-! ## Claim C5: the check-then-sleep region is race-free -/

/-- C5: for every arrival instant of the wake event — before the masked
re-check, between the re-check and the sleep instruction, or after sleep
entry — the check-then-sleep region terminates with the wake event taken
(an event arriving inside the masked window is latched and wakes the
processor via the sleep instruction scheduled directly after `sei`), and
interrupts are unmasked at exit on both branches, including when the
masked re-check failed; the sleep is actually entered exactly when the
line is still high at the re-check. -/
theorem c5_check_then_sleep_never_loses_wake (arrival : Nat) :
    (checkThenSleep arrival).map (fun p => p.2.iflag) = some true ∧
    (checkThenSleep arrival).map (fun p => p.1) =
      some (decide (1 < arrival)) := by
  match arrival with
  | 0 => exact ⟨rfl, rfl⟩
  | 1 => exact ⟨rfl, rfl⟩
  | 2 => exact ⟨rfl, rfl⟩
  | 3 => exact ⟨rfl, rfl⟩
  | 4 => exact ⟨rfl, rfl⟩
  | 5 => exact ⟨rfl, rfl⟩
  | n + 6 =>
    constructor
    · simp [checkThenSleep, execPlain, boundary, latch, service, execSleepCpu]
    · simp [checkThenSleep, execPlain, boundary, latch, service, execSleepCpu]

/-! ## Claim C6: deep-sleep peripheral disable -/

/-- C6, the code evaluated at the failing input: entering the deep-sleep
path with the analog comparator enabled (ACD clear) leaves the
comparator enabled during the sleep, and entering with it disabled (ACD
set) switches it on for the duration of the sleep — while the ADC half
behaves as specified.  The code tests and clears the ACD bit, but ACD is
the comparator DISABLE bit, so the comparator handling is inverted
relative to the claim (and to the code's own `disable`/`re-enable`
comments). -/
theorem c6_comparator_handling_inverted :
    acEnabled (deepSleepDisablePhase ⟨true, false⟩).2 = true ∧
    acEnabled (deepSleepDisablePhase ⟨true, true⟩).2 = true ∧
    adcEnabled (deepSleepDisablePhase ⟨true, false⟩).2 = false ∧
    adcEnabled (deepSleepDisablePhase ⟨false, false⟩).2 = false := by decide

theorem sleepDeepSection_fst (pind3 : Bool) (r : AnalogRegs) :
    (sleepDeepSection pind3 r).1 = r := by
  rcases r with ⟨aden, acd⟩
  cases aden <;> cases acd <;> rfl

/-! ## Claim C7: analog peripheral state is a frame of `sleep` -/

/-- C7: for every duration, line oracle, re-check level and initial
register state, the ADC-enable and comparator register bits after
`sleep` returns equal the bits before the call: the deep-sleep path
restores exactly the snapshot taken by the disable phase, and every
other path never touches the two registers. -/
theorem c7_sleep_preserves_analog_regs (duration : Nat)
    (lines : Nat → Nat → Bool) (pind3 : Bool) (r : AnalogRegs) :
    (sleep duration lines pind3 r).1 = r := by
  simp only [sleep]
  split
  · rfl
  · repeat' split
    all_goals first | rfl | exact sleepDeepSection_fst pind3 r

/-! ## Claim C8: mid-range fallback -/

/-- C8: `sleep 1000` with a ready line that never asserts performs
exactly one request-and-poll cycle (a single sleep request followed by
30 one-millisecond polls), then one plain timed wait of 1000 - 30 ms,
and returns: no second `serialSleep` (no retry), no interrupt attach, no
`cli`, no sleep-mode arming, no sleep instruction, and the analog
registers are returned untouched. -/
theorem c8_midrange_fallback_no_lowpower (pind3 : Bool) (r : AnalogRegs) :
    sleep 1000 (fun _ _ => false) pind3 r =
      (r, [Effect.pinInput, Effect.btUartSleepNormal, Effect.pinInput,
           Effect.serialSleep 1000, Effect.serialFlush] ++
        List.replicate 30 (Effect.delayMs 1) ++ [Effect.delayMs 970]) ∧
    (sleep 1000 (fun _ _ => false) pind3 r).2.count
      (Effect.serialSleep 1000) = 1 ∧
    Effect.attachInt ∉ (sleep 1000 (fun _ _ => false) pind3 r).2 ∧
    Effect.cliE ∉ (sleep 1000 (fun _ _ => false) pind3 r).2 ∧
    Effect.sleepEnableE ∉ (sleep 1000 (fun _ _ => false) pind3 r).2 ∧
    Effect.sleepCpuE ∉ (sleep 1000 (fun _ _ => false) pind3 r).2 := by
  have htrace : sleep 1000 (fun _ _ => false) pind3 r =
      (r, [Effect.pinInput, Effect.btUartSleepNormal, Effect.pinInput,
           Effect.serialSleep 1000, Effect.serialFlush] ++
        List.replicate 30 (Effect.delayMs 1) ++ [Effect.delayMs 970]) := rfl
  refine ⟨htrace, ?_, ?_, ?_, ?_, ?_⟩ <;> rw [htrace] <;> dsimp only <;> decide

end Bean
